import Mathlib

/-!
Shallow embedding of the American Mahjong rules engine
(browser-mahjong-game: Tile/Wall/TileSet model, HandEvaluator,
HandValidator, RuleEngine, GameEngine, AIPlayer), together with
theorems settling the specification claims.

Conventions of the embedding:
- JavaScript arrays are Lean lists; in-place mutation (splice/push)
  becomes explicit list rebuilding in the same element order.
- Tile objects are identified by their `id` field.  The TypeScript
  `TileClass` assigns every constructed tile a fresh unique id; the
  embedding makes the allocator explicit (the Wall numbers its tiles
  0..143 in construction order, and later constructions take ids from
  a counter threaded through the engine state).
- String keys built with template literals (`${type}-${value}`,
  `${type}:${value}`) are rebuilt with string append on the same
  rendered fragments.
- Functions that `throw` are embedded as `Option`-returning functions
  (`none` = exception); `try/catch` becomes an explicit match on an
  `Except` value.
-/

/-- Tile classification, from `TileType` in Tile.ts (string enum:
"bamboo", "character", "dot", "wind", "dragon", "flower", "joker"). -/
inductive TileType
  | bamboo
  | character
  | dot
  | wind
  | dragon
  | flower
  | joker
deriving DecidableEq, Repr

/-- The string value of the `TileType` enum member, as used in key
template literals. -/
def TileType.str : TileType → String
  | .bamboo => "bamboo"
  | .character => "character"
  | .dot => "dot"
  | .wind => "wind"
  | .dragon => "dragon"
  | .flower => "flower"
  | .joker => "joker"

/-- A tile value: `number | string` in the TypeScript source (numeric
for suits, symbolic such as "N", "Red" or "Joker" for honors and
jokers). -/
inductive TValue
  | num (n : Nat)
  | sym (s : String)
deriving DecidableEq, Repr

/-- Rendering of a tile value inside a template literal. -/
def TValue.str : TValue → String
  | .num n => toString n
  | .sym s => s

/-- Modelled from the spec: Tile.ts itself is not in the sources (only
its tests, Wall.ts and TileSet.ts which use it), so the tile record is
reconstructed from spec §3 and those usages: identity (unique id),
classification, value, and an exposed flag.  Ids are natural numbers
standing for the unique ids `TileClass` generates. -/
structure Tile where
  id : Nat
  type : TileType
  value : TValue
  exposed : Bool := false
deriving DecidableEq, Repr

instance : Inhabited Tile :=
  ⟨⟨0, TileType.joker, TValue.sym "Joker", false⟩⟩

/-- Exposed-set kind, from `SetType` in Tile.ts. -/
inductive SetType
  | pung
  | kong
  | chow
deriving DecidableEq, Repr

/-- An exposed tile set (the data of `TileSetClass` in TileSet.ts). -/
structure TileSet where
  type : SetType
  tiles : List Tile
deriving DecidableEq, Repr

/-- `TileClass.equals`: same type and value, exposure ignored
(from Tile.test.ts). -/
def Tile.equals (a b : Tile) : Bool :=
  a.type = b.type ∧ a.value = b.value

/-- `TileSetClass.validate` for a constructed set (TileSet.ts):
a pung is 3 equal tiles, a kong 4; chow needs three consecutive
same-suit tiles (not used by the engine's call processing). -/
def TileSet.validate (s : TileSet) : Bool :=
  match s.type with
  | .pung => s.tiles.length = 3 ∧
      s.tiles.all (fun t => t.equals (s.tiles.headI))
  | .kong => s.tiles.length = 4 ∧
      s.tiles.all (fun t => t.equals (s.tiles.headI))
  | .chow => false

/-- The validating `TileSetClass` constructor: throws on an invalid
combination (embedded as `none`).  The chow branch is elided (never
constructed by the engine code under study); modelling it as invalid
is conservative for the claims, which only build pungs and kongs. -/
def TileSet.mk? (type : SetType) (tiles : List Tile) : Option TileSet :=
  let s : TileSet := ⟨type, tiles⟩
  if s.validate then some s else none

/-- Requirement type constraint, from `TileRequirement.type` in
CardTypes.ts: `TileType | 'any' | 'same_suit'`. -/
inductive ReqType
  | tt (t : TileType)
  | any
  | same_suit
deriving DecidableEq, Repr

/-- The string a requirement type renders to in template literals. -/
def ReqType.str : ReqType → String
  | .tt t => t.str
  | .any => "any"
  | .same_suit => "same_suit"

/-- `TileRequirement` from CardTypes.ts.  `Option` captures the
difference between an absent (undefined) optional field and a present
(possibly empty) array, which matters for `specific || values`. -/
structure TileRequirement where
  type : ReqType
  count : Nat
  sequence : Bool := false
  specific : Option (List TValue) := none
  values : Option (List TValue) := none
  jokerAllowed : Bool
deriving DecidableEq, Repr

/-- `HandPattern` from CardTypes.ts. -/
structure HandPattern where
  id : String
  name : String
  category : String
  points : Int
  tiles : List TileRequirement
deriving DecidableEq, Repr

/-- `CardConfig` from CardTypes.ts. -/
structure CardConfig where
  year : Int
  version : String
  patterns : List HandPattern
deriving DecidableEq, Repr

namespace HandEvaluator

/-- `HandEvaluator.getTileKey`: the template literal
`${tile.type}-${tile.value}`. -/
def getTileKey (tile : Tile) : String :=
  tile.type.str ++ "-" ++ tile.value.str

/-- One insertion into the count map (JS `Map` keeps key insertion
order; the association list mirrors it). -/
def bumpCount (counts : List (String × Nat)) (key : String) :
    List (String × Nat) :=
  match counts with
  | [] => [(key, 1)]
  | (k, n) :: rest =>
      if k = key then (k, n + 1) :: rest else (k, n) :: bumpCount rest key

/-- `HandEvaluator.countTiles`: counts tiles by `getTileKey`. -/
def countTiles (tiles : List Tile) : List (String × Nat) :=
  tiles.foldl (fun m t => bumpCount m (getTileKey t)) []

/-- `tileCounts.get(key) || 0`. -/
def getCount (counts : List (String × Nat)) (key : String) : Nat :=
  match counts.find? (fun p => p.1 = key) with
  | some p => p.2
  | none => 0

/-- `HandEvaluator.countTilesOfType`: with a non-empty value list, sum
the counts of the listed `type-value` keys; otherwise sum every entry
whose key starts with `"type-"`. -/
def countTilesOfType (counts : List (String × Nat)) (typeStr : String)
    (values : List TValue) : Nat :=
  if values.length > 0 then
    values.foldl (fun acc v => acc + getCount counts (typeStr ++ "-" ++ v.str)) 0
  else
    counts.foldl
      (fun acc p => if p.1.startsWith (typeStr ++ "-") then acc + p.2 else acc) 0

/-- `HandEvaluator.countSequenceTiles`. -/
def countSequenceTiles (counts : List (String × Nat))
    (requirement : TileRequirement) : Nat :=
  match requirement.values with
  | none => 0
  | some values =>
    if values.length = 0 then 0
    else
      match requirement.type with
      | .same_suit =>
          let suitCounts := [TileType.bamboo, .character, .dot].map
            (fun suitType => values.foldl
              (fun acc v => acc + getCount counts (suitType.str ++ "-" ++ v.str)) 0)
          suitCounts.foldl max 0
      | t => values.foldl
          (fun acc v => acc + getCount counts (t.str ++ "-" ++ v.str)) 0

/-- `HandEvaluator.countMatchingTiles`: per-requirement optimistic
count, capped at the requirement's count. -/
def countMatchingTiles (counts : List (String × Nat))
    (requirement : TileRequirement) : Nat :=
  if requirement.sequence then countSequenceTiles counts requirement
  else
    let valueList := (requirement.specific.orElse fun _ => requirement.values).getD []
    let count :=
      match requirement.type with
      | .any =>
          counts.foldl
            (fun acc p => if p.1.startsWith "joker-" then acc else acc + p.2) 0
      | .same_suit =>
          let suitCounts := [TileType.bamboo, .character, .dot].map
            (fun suitType => countTilesOfType counts suitType.str valueList)
          suitCounts.foldl max 0
      | .tt t => countTilesOfType counts t.str valueList
    min count requirement.count

/-- JS `Math.round` on a non-negative rational: half rounds up. -/
def jsRound (q : ℚ) : ℤ := ⌊q + 1 / 2⌋

/-- JS `Set.add` on an insertion-ordered list. -/
def setAdd (s : List String) (key : String) : List String :=
  if s.contains key then s else s ++ [key]

/-- `HandEvaluator.addUsefulTiles`. -/
def addUsefulTiles (usefulTiles : List String)
    (requirement : TileRequirement) : List String :=
  let valueList := (requirement.specific.orElse fun _ => requirement.values).getD []
  match requirement.type with
  | .any => usefulTiles
  | .same_suit =>
      [TileType.bamboo, .character, .dot].foldl
        (fun acc suitType => valueList.foldl
          (fun acc v => setAdd acc (suitType.str ++ "-" ++ v.str)) acc)
        usefulTiles
  | t => valueList.foldl (fun acc v => setAdd acc (t.str ++ "-" ++ v.str))
      usefulTiles

/-- Evaluation record returned per pattern (`HandEvaluation`). -/
structure HandEvaluation where
  pattern : HandPattern
  tilesNeeded : Int
  proximityScore : Int
  usefulTiles : List String
deriving DecidableEq, Repr

/-- `HandEvaluator.evaluatePattern`.  Note the source computes its
`jokerCount` as `tileCounts.get(getTileKey({type: JOKER, value: 0}))`,
i.e. a lookup of the literal key "joker-0"; real joker tiles carry the
value "Joker" and are keyed "joker-Joker".  The embedding reproduces
that lookup verbatim.  `proximityScore` divides by `totalRequired`
(JS yields NaN for an empty requirement list; that case is modelled as
0 and is unused by the claims). -/
def evaluatePattern (hand : List Tile) (exposedSets : List TileSet)
    (pattern : HandPattern) : HandEvaluation :=
  let allTiles := hand ++ exposedSets.flatMap TileSet.tiles
  let tileCounts := countTiles allTiles
  let jokerCount := getCount tileCounts
    (getTileKey ⟨0, TileType.joker, TValue.num 0, false⟩)
  let totalRequired : Nat := pattern.tiles.foldl (fun acc r => acc + r.count) 0
  let totalMatched : Nat := pattern.tiles.foldl
    (fun acc r => acc + countMatchingTiles tileCounts r) 0
  let usefulTiles := pattern.tiles.foldl addUsefulTiles []
  let tilesNeeded : Int :=
    max 0 ((totalRequired : Int) - (totalMatched : Int) - (jokerCount : Int))
  let proximityScore : Int :=
    if totalRequired = 0 then 0
    else jsRound ((totalMatched : ℚ) / (totalRequired : ℚ) * 100)
  ⟨pattern, tilesNeeded, proximityScore, usefulTiles⟩

/-- The sort comparator of `evaluateHand`: ascending `tilesNeeded`,
then descending `proximityScore`; `true` means `a` strictly precedes
`b` (negative JS comparator). -/
def evalBefore (a b : HandEvaluation) : Bool :=
  if a.tilesNeeded ≠ b.tilesNeeded then a.tilesNeeded < b.tilesNeeded
  else b.proximityScore < a.proximityScore

/-- Stable insertion step for the sort: a later element is inserted
after every element it does not strictly precede, matching the stable
JS `Array.prototype.sort`. -/
def insertStable (x : HandEvaluation) :
    List HandEvaluation → List HandEvaluation
  | [] => [x]
  | y :: rest =>
      if evalBefore x y then x :: y :: rest else y :: insertStable x rest

/-- Stable sort by `evalBefore` (the unique output a stable sort with
the source's comparator produces). -/
def sortEvaluations (l : List HandEvaluation) : List HandEvaluation :=
  l.foldl (fun acc e => insertStable e acc) []

/-- `HandEvaluator.evaluateHand`: evaluate every pattern of the card
configuration, then sort by proximity. -/
def evaluateHand (cardConfig : CardConfig) (hand : List Tile)
    (exposedSets : List TileSet) : List HandEvaluation :=
  sortEvaluations (cardConfig.patterns.map (evaluatePattern hand exposedSets))

end HandEvaluator

namespace HandValidator

/-- `ValidationResult` from HandValidator.ts. -/
structure ValidationResult where
  isValid : Bool
  matchedPattern : Option HandPattern := none
  score : Option Int := none
  error : Option String := none
deriving DecidableEq, Repr

/-- `HandValidator.tileMatchesRequirement`: jokers never match; a
concrete tile-type constraint is enforced, while `any` and `same_suit`
enforce none; a non-empty `specific || values` list restricts the
value. -/
def tileMatchesRequirement (tile : Tile) (type : ReqType)
    (specific : Option (List TValue)) (values : Option (List TValue)) : Bool :=
  if tile.type = TileType.joker then false
  else if (match type with
           | .tt t => (tile.type ≠ t : Bool)
           | .any => false
           | .same_suit => false) then false
  else
    match specific.orElse fun _ => values with
    | some valueList =>
        if valueList.length > 0 then valueList.contains tile.value else true
    | none => true

/-- Remove the first tile carrying the given id (JS
`findIndex`/`indexOf` + `splice`; absent id leaves the list alone). -/
def eraseFirstById (tiles : List Tile) (id : Nat) : List Tile :=
  match tiles with
  | [] => []
  | t :: rest => if t.id = id then rest else t :: eraseFirstById rest id

/-- Sequentially remove tiles by id. -/
def removeByIds (tiles : List Tile) (ids : List Nat) : List Tile :=
  ids.foldl eraseFirstById tiles

/-- Key used to group identical tiles: `${tile.type}:${tile.value}`. -/
def groupKey (tile : Tile) : String :=
  tile.type.str ++ ":" ++ tile.value.str

/-- Append a tile to its group in the insertion-ordered group map. -/
def addToGroup (groups : List (String × List Tile)) (key : String)
    (tile : Tile) : List (String × List Tile) :=
  match groups with
  | [] => [(key, [tile])]
  | (k, g) :: rest =>
      if k = key then (k, g ++ [tile]) :: rest
      else (k, g) :: addToGroup rest key tile

/-- Group the candidate tiles of a non-sequence requirement by
`type:value` identity, in array order. -/
def buildGroups (tiles : List Tile) (type : ReqType)
    (specific : Option (List TValue)) (values : Option (List TValue)) :
    List (String × List Tile) :=
  tiles.foldl
    (fun groups t =>
      if tileMatchesRequirement t type specific values then
        addToGroup groups (groupKey t) t
      else groups)
    []

/-- One step of the backwards scan of `matchSequenceForSuit`: returns
(remaining tiles in order, matched tiles in push order, jokers in push
order, values still needed).  The JS loop walks the array from its end,
so the tail of the list is processed first. -/
def seqScan (suitType : TileType) (tiles : List Tile)
    (needed : List TValue) :
    List Tile × List Tile × List Tile × List TValue :=
  match tiles with
  | [] => ([], [], [], needed)
  | t :: rest =>
      let (rem, matched, jokers, needed') := seqScan suitType rest needed
      if t.type = TileType.joker then
        (rem, matched, jokers ++ [t], needed')
      else if t.type = suitType ∧ needed'.contains t.value then
        (rem, matched ++ [t], jokers, needed'.filter (· ≠ t.value))
      else
        (t :: rem, matched, jokers, needed')

/-- `HandValidator.matchSequenceForSuit`.  On success with no missing
values, the collected jokers are dropped from the available tiles (the
source returns without pushing them back); on a joker-completed match
the unused jokers are re-appended; on failure matched tiles and jokers
are re-appended (reordering the array exactly as the source does). -/
def matchSequenceForSuit (availableTiles : List Tile)
    (suitType : TileType) (values : List TValue) (jokerAllowed : Bool) :
    Bool × List Tile :=
  let (rem, matched, jokers, neededLeft) :=
    seqScan suitType availableTiles values.eraseDups
  let missingCount := neededLeft.length
  if missingCount = 0 then (true, rem)
  else if jokerAllowed ∧ missingCount ≤ jokers.length then
    (true, rem ++ jokers.drop missingCount)
  else (false, rem ++ matched ++ jokers)

/-- `HandValidator.matchSequence`: `same_suit` tries bamboo, then
character, then dot (each failed attempt leaves its reordered array to
the next); a concrete type tries just that suit; `any` sequences fail. -/
def matchSequence (availableTiles : List Tile)
    (requirement : TileRequirement) : Bool × List Tile :=
  match requirement.values with
  | none => (false, availableTiles)
  | some values =>
    if values.length = 0 then (false, availableTiles)
    else
      match requirement.type with
      | .same_suit =>
          let (ok1, ts1) := matchSequenceForSuit availableTiles
            TileType.bamboo values requirement.jokerAllowed
          if ok1 then (true, ts1)
          else
            let (ok2, ts2) := matchSequenceForSuit ts1
              TileType.character values requirement.jokerAllowed
            if ok2 then (true, ts2)
            else matchSequenceForSuit ts2 TileType.dot values
              requirement.jokerAllowed
      | .tt t => matchSequenceForSuit availableTiles t values
          requirement.jokerAllowed
      | .any => (false, availableTiles)

/-- `HandValidator.matchRequirement` for the non-sequence case: set
jokers aside, group candidates by identity, take the first group whose
size plus the joker pool covers the count; consume real tiles first and
jokers (only if allowed — the source checks `jokerAllowed` only when
consuming, not when testing sufficiency) for the shortfall; unused
jokers return to the pool. -/
def matchRequirement (availableTiles : List Tile)
    (requirement : TileRequirement) : Bool × List Tile :=
  if requirement.sequence then matchSequence availableTiles requirement
  else
    let jokers := (availableTiles.filter (fun t => t.type = TileType.joker)).reverse
    let avail := availableTiles.filter (fun t => t.type ≠ TileType.joker)
    let groups := buildGroups avail requirement.type requirement.specific
      requirement.values
    match groups.find?
        (fun g => requirement.count ≤ g.2.length + jokers.length) with
    | none => (false, avail ++ jokers)
    | some (_, group) =>
        let toRemove := group.take (min requirement.count group.length)
        let avail' := removeByIds avail (toRemove.map Tile.id)
        let jokersNeeded := requirement.count - group.length
        let jokersLeft :=
          if 0 < jokersNeeded ∧ requirement.jokerAllowed then
            jokers.drop jokersNeeded
          else jokers
        (true, avail' ++ jokersLeft)

/-- The requirement loop of `HandValidator.matchPattern`: thread the
available tiles through each requirement, aborting on failure. -/
def matchReqs : List Tile → List TileRequirement → Option (List Tile)
  | tiles, [] => some tiles
  | tiles, r :: rest =>
      match matchRequirement tiles r with
      | (true, tiles') => matchReqs tiles' rest
      | (false, _) => none

/-- `HandValidator.matchPattern`: every requirement satisfied and no
tile left over. -/
def matchPattern (tiles : List Tile) (pattern : HandPattern) : Bool :=
  match matchReqs tiles pattern.tiles with
  | some rest => rest.length = 0
  | none => false

/-- `HandValidator.calculateScore`. -/
def calculateScore (pattern : HandPattern) : Int :=
  pattern.points

/-- `HandValidator.validateHand`: 14 tiles exactly, then the first
matching pattern in configuration order wins. -/
def validateHand (cardConfig : CardConfig) (hand : List Tile)
    (exposedSets : List TileSet) : ValidationResult :=
  let allTiles := hand ++ exposedSets.flatMap TileSet.tiles
  if allTiles.length ≠ 14 then
    ⟨false, none, none, some "Invalid hand size"⟩
  else
    match cardConfig.patterns.find? (fun p => matchPattern allTiles p) with
    | some pattern => ⟨true, some pattern, some (calculateScore pattern), none⟩
    | none => ⟨false, none, none, some "Hand does not match any valid pattern"⟩

end HandValidator

/-- Call kinds, from `CallType` in RuleEngine.ts. -/
inductive CallType
  | pung
  | kong
  | mahjong
deriving DecidableEq, Repr

namespace RuleEngine

/-- `CallValidationResult` from RuleEngine.ts. -/
structure CallValidationResult where
  isValid : Bool
  callType : Option CallType := none
  error : Option String := none
deriving DecidableEq, Repr

/-- `CallOpportunity` from RuleEngine.ts. -/
structure CallOpportunity where
  playerId : Nat
  callType : CallType
  tile : Tile
deriving DecidableEq, Repr

/-- The id/hand projection of a player handed to
`getCallOpportunities`. -/
structure PlayerRef where
  id : Nat
  hand : List Tile
deriving DecidableEq, Repr

/-- Tiles of the hand exactly matching the discard (and not jokers) —
the filter shared by pung/kong validation and call processing. -/
def matchingTiles (hand : List Tile) (discardedTile : Tile) : List Tile :=
  hand.filter fun t =>
    t.type = discardedTile.type ∧ t.value = discardedTile.value ∧
      t.type ≠ TileType.joker

/-- `RuleEngine.validatePungCall`: the discard is not a joker and the
hand holds at least 2 exactly matching non-joker tiles. -/
def validatePungCall (hand : List Tile) (discardedTile : Tile) :
    CallValidationResult :=
  if discardedTile.type = TileType.joker then
    ⟨false, none, some "Cannot call a joker"⟩
  else if (matchingTiles hand discardedTile).length < 2 then
    ⟨false, none, some "Need at least 2 matching tiles in hand to call pung"⟩
  else ⟨true, some CallType.pung, none⟩

/-- `RuleEngine.validateKongCall`: as pung but with at least 3
matching tiles. -/
def validateKongCall (hand : List Tile) (discardedTile : Tile) :
    CallValidationResult :=
  if discardedTile.type = TileType.joker then
    ⟨false, none, some "Cannot call a joker"⟩
  else if (matchingTiles hand discardedTile).length < 3 then
    ⟨false, none, some "Need at least 3 matching tiles in hand to call kong"⟩
  else ⟨true, some CallType.kong, none⟩

/-- `RuleEngine.validateMahjongCall`: tile-count precondition only —
hand plus the optional discard must total exactly 14. -/
def validateMahjongCall (hand : List Tile) (discardedTile : Option Tile) :
    CallValidationResult :=
  let totalTiles := hand.length + (if discardedTile.isSome then 1 else 0)
  if totalTiles ≠ 14 then
    ⟨false, none, some "Invalid tile count for mahjong"⟩
  else ⟨true, some CallType.mahjong, none⟩

/-- The opportunities one non-discarding player contributes, in the
source's push order: mahjong (optionally confirmed through a
`HandValidator` over a card configuration), then kong, then pung. -/
def playerOpportunities (discardedTile : Tile)
    (handValidator : Option CardConfig) (player : PlayerRef) :
    List CallOpportunity :=
  (if (validateMahjongCall player.hand (some discardedTile)).isValid then
     match handValidator with
     | some config =>
         if (HandValidator.validateHand config
             (player.hand ++ [discardedTile]) []).isValid then
           [⟨player.id, CallType.mahjong, discardedTile⟩]
         else []
     | none => [⟨player.id, CallType.mahjong, discardedTile⟩]
   else []) ++
  (if (validateKongCall player.hand discardedTile).isValid then
     [⟨player.id, CallType.kong, discardedTile⟩]
   else []) ++
  (if (validatePungCall player.hand discardedTile).isValid then
     [⟨player.id, CallType.pung, discardedTile⟩]
   else [])

/-- `RuleEngine.getCallOpportunities`: every player except the
discarder is tested for mahjong, kong and pung, appending one entry
per eligible call type. -/
def getCallOpportunities (discardedTile : Tile) (currentPlayer : Nat)
    (players : List PlayerRef) (handValidator : Option CardConfig) :
    List CallOpportunity :=
  players.flatMap fun player =>
    if player.id = currentPlayer then []
    else playerOpportunities discardedTile handValidator player

/-- `RuleEngine.getNextPlayer`. -/
def getNextPlayer (currentPlayer : Nat) : Nat :=
  (currentPlayer + 1) % 4

/-- `RuleEngine.getPlayerDistance`: clockwise seat distance
`(toPlayer - fromPlayer + 4) % 4` with the sign behaviour of the JS
`%` operator (truncated remainder). -/
def getPlayerDistance (fromPlayer toPlayer : Int) : Int :=
  (toPlayer - fromPlayer + 4).tmod 4

/-- The tie-break scan of `resolveCallPriority`: keep the first
opportunity whose caller sits strictly closer (clockwise) to the
discarder. -/
def pickClosest (currentPlayer : Nat) (best : CallOpportunity)
    (rest : List CallOpportunity) : CallOpportunity :=
  rest.foldl
    (fun b o =>
      if getPlayerDistance currentPlayer o.playerId <
          getPlayerDistance currentPlayer b.playerId then o else b)
    best

/-- The priority-class loop of `resolveCallPriority`. -/
def resolveLoop (opportunities : List CallOpportunity)
    (currentPlayer : Nat) : List CallType → Option CallOpportunity
  | [] => none
  | priority :: rest =>
      match opportunities.filter (fun o => o.callType = priority) with
      | [] => resolveLoop opportunities currentPlayer rest
      | [single] => some single
      | first :: more => some (pickClosest currentPlayer first more)

/-- `RuleEngine.resolveCallPriority`: Mahjong > Kong > Pung; within a
class the caller closest in turn order wins. -/
def resolveCallPriority (opportunities : List CallOpportunity)
    (currentPlayer : Nat) : Option CallOpportunity :=
  if opportunities.length = 0 then none
  else resolveLoop opportunities currentPlayer
    [CallType.mahjong, CallType.kong, CallType.pung]

/-- `RuleEngine.validateDiscard`: the tile's id is present in the
hand. -/
def validateDiscard (tile : Tile) (hand : List Tile) : Bool :=
  hand.any fun t => t.id = tile.id

/-- `RuleEngine.canContinueGame`. -/
def canContinueGame (wallSize : Nat) : Bool :=
  0 < wallSize

/-- The removal loop of `RuleEngine.processCall`: for each matched
tile, remove it from the hand by id and (when found) push a freshly
constructed exposed copy; the id counter allocates one id per created
copy.  Returns (hand after removals, copies in push order, next id). -/
def removeAndCopy (hand : List Tile) (matched : List Tile) (nextId : Nat) :
    List Tile × List Tile × Nat :=
  match matched with
  | [] => (hand, [], nextId)
  | m :: rest =>
      if hand.any (fun t => t.id = m.id) then
        let hand' := HandValidator.eraseFirstById hand m.id
        let (hand'', copies, nid) := removeAndCopy hand' rest (nextId + 1)
        (hand'', Tile.mk nextId m.type m.value true :: copies, nid)
      else removeAndCopy hand rest nextId

/-- `RuleEngine.processCall`: build the exposed set for a pung or kong
call from a fresh exposed copy of the called discard plus fresh
exposed copies of the matched hand tiles (removing the originals from
the hand); throws (`none`) on a mahjong/unknown call type, on
insufficient matching tiles, or (unreachably here) on an invalid
constructed set.  `nextId` models the `TileClass` id allocator. -/
def processCall (hand : List Tile) (discardedTile : Tile)
    (callType : CallType) (nextId : Nat) :
    Option (TileSet × List Tile × Nat) :=
  let calledTile : Tile := ⟨nextId, discardedTile.type, discardedTile.value, true⟩
  let matched := matchingTiles hand discardedTile
  match (match callType with
         | CallType.pung => some (2, SetType.pung)
         | CallType.kong => some (3, SetType.kong)
         | CallType.mahjong => none : Option (Nat × SetType)) with
  | none => none
  | some (tilesNeeded, setType) =>
      if matched.length < tilesNeeded then none
      else
        let (hand', copies, nid) :=
          removeAndCopy hand (matched.take tilesNeeded) (nextId + 1)
        (TileSet.mk? setType (calledTile :: copies)).map
          fun s => (s, hand', nid)

end RuleEngine

/-- The drawn-count-cursor wall of Wall.ts: tiles are never removed,
a cursor tracks how many have been drawn. -/
structure Wall where
  tiles : List Tile
  drawnCount : Nat
deriving DecidableEq, Repr

namespace Wall

/-- `Wall.isEmpty`: the cursor has reached the end. -/
def isEmpty (w : Wall) : Bool :=
  w.tiles.length ≤ w.drawnCount

/-- `Wall.draw`: `null` when empty, otherwise the tile at the cursor,
advancing it. -/
def draw (w : Wall) : Option Tile × Wall :=
  if w.isEmpty then (none, w)
  else (w.tiles.get? w.drawnCount, { w with drawnCount := w.drawnCount + 1 })

/-- `Wall.drawMultiple`: draw up to `count` tiles, stopping early on
exhaustion. -/
def drawMultiple (w : Wall) (count : Nat) : List Tile × Wall :=
  match count with
  | 0 => ([], w)
  | n + 1 =>
      match draw w with
      | (none, w') => ([], w')
      | (some t, w') =>
          let (rest, w'') := drawMultiple w' n
          (t :: rest, w'')

/-- `Wall.getRemainingCount`. -/
def getRemainingCount (w : Wall) : Nat :=
  w.tiles.length - w.drawnCount

/-- `Wall.getRemainingTiles`. -/
def getRemainingTiles (w : Wall) : List Tile :=
  w.tiles.drop w.drawnCount

/-- The (type, value) sequence `Wall.initialize` constructs: 3 suits ×
9 values × 4 copies, then 4 winds × 4, 3 dragons × 4, 8 jokers. -/
def protoTiles : List (TileType × TValue) :=
  ([TileType.bamboo, .character, .dot].flatMap fun suit =>
    (List.range 9).flatMap fun v =>
      (List.range 4).map fun _ => (suit, TValue.num (v + 1))) ++
  (["N", "E", "S", "W"].flatMap fun wind =>
    (List.range 4).map fun _ => (TileType.wind, TValue.sym wind)) ++
  (["Red", "Green", "White"].flatMap fun dragon =>
    (List.range 4).map fun _ => (TileType.dragon, TValue.sym dragon)) ++
  ((List.range 8).map fun _ => (TileType.joker, TValue.sym "Joker"))

/-- The 144 tiles `Wall.initialize` creates, with the id allocator made
explicit: construction order gives ids 0..143. -/
def wall144 : List Tile :=
  protoTiles.enum.map fun p => ⟨p.1, p.2.1, p.2.2, false⟩

end Wall

/-- Turn phases, from `TurnPhase` in GameState.ts. -/
inductive TurnPhase
  | draw
  | discard
  | call_opportunity
  | game_over
deriving DecidableEq, Repr

/-- Game status, from `GameStatus` in GameState.ts. -/
inductive GameStatus
  | in_progress
  | won
  | draw
deriving DecidableEq, Repr

/-- A seated player, from `Player` in GameState.ts. -/
structure PlayerState where
  id : Nat
  isHuman : Bool
  hand : List Tile
  exposedSets : List TileSet
  discardedTiles : List Tile
deriving DecidableEq, Repr

/-- `GameState` from GameState.ts.  The random `gameId` string is
omitted (never read by the engine logic under study). -/
structure GameState where
  selectedCardYear : Int
  currentPlayer : Nat
  players : List PlayerState
  wall : List Tile
  discardPile : List Tile
  turnPhase : TurnPhase
  gameStatus : GameStatus
  winnerId : Option Nat := none
deriving DecidableEq, Repr

namespace GameEngine

/-- The engine's own long-lived fields: the game state, the wall
object (`state.wall` only mirrors its remaining tiles), the card
configuration, and the explicit `TileClass` id allocator. -/
structure Engine where
  state : GameState
  wall : Wall
  cardConfig : CardConfig
  nextId : Nat
deriving DecidableEq, Repr

/-- `GameEngine.getPlayer`: the first player with the given id. -/
def getPlayer (e : Engine) (playerId : Nat) : Option PlayerState :=
  e.state.players.find? fun p => p.id = playerId

/-- In-place mutation of the player object `getPlayer` found: replace
the first entry with the given id. -/
def updateFirst (players : List PlayerState) (playerId : Nat)
    (f : PlayerState → PlayerState) : List PlayerState :=
  match players with
  | [] => []
  | q :: rest =>
      if q.id = playerId then f q :: rest
      else q :: updateFirst rest playerId f

/-- `GameEngine.endGame`: with a winner the status is WON, otherwise a
DRAW; either way the phase becomes GAME_OVER. -/
def endGameState (s : GameState) (winnerId : Option Nat) : GameState :=
  match winnerId with
  | some w => { s with gameStatus := GameStatus.won, winnerId := some w,
                       turnPhase := TurnPhase.game_over }
  | none => { s with gameStatus := GameStatus.draw,
                     turnPhase := TurnPhase.game_over }

/-- `GameEngine.initializeGame` with the shuffle outcome made an
explicit argument (`Wall.shuffle` is a uniformly random Fisher–Yates
permutation of the freshly constructed 144 tiles): build players, deal
13 tiles to each seat in order, reset phase and status.  The allocator
counter continues after the wall's 144 ids. -/
def initializeGame (cardConfig : CardConfig) (shuffledTiles : List Tile) :
    Engine :=
  let wall0 : Wall := ⟨shuffledTiles, 0⟩
  let (h0, wall1) := wall0.drawMultiple 13
  let (h1, wall2) := wall1.drawMultiple 13
  let (h2, wall3) := wall2.drawMultiple 13
  let (h3, wall4) := wall3.drawMultiple 13
  { state :=
      { selectedCardYear := cardConfig.year
        currentPlayer := 0
        players :=
          [⟨0, true, h0, [], []⟩, ⟨1, false, h1, [], []⟩,
           ⟨2, false, h2, [], []⟩, ⟨3, false, h3, [], []⟩]
        wall := wall4.getRemainingTiles
        discardPile := []
        turnPhase := TurnPhase.draw
        gameStatus := GameStatus.in_progress
        winnerId := none }
    wall := wall4
    cardConfig := cardConfig
    nextId := 144 }

/-- `GameEngine.drawTile`: `none` embeds a thrown `GameError` (missing
player, wrong turn, wrong phase); `some (e, none)` is the null return
on wall exhaustion, which leaves the whole engine state untouched. -/
def drawTile (e : Engine) (playerId : Nat) : Option (Engine × Option Tile) :=
  match getPlayer e playerId with
  | none => none
  | some _ =>
      if e.state.currentPlayer ≠ playerId then none
      else if e.state.turnPhase ≠ TurnPhase.draw then none
      else
        match e.wall.draw with
        | (none, _) => some (e, none)
        | (some tile, wall') =>
            let players := updateFirst e.state.players playerId
              fun p => { p with hand := p.hand ++ [tile] }
            some
              ({ e with
                  wall := wall'
                  state :=
                    { e.state with
                        players := players
                        wall := wall'.getRemainingTiles
                        turnPhase := TurnPhase.discard } },
               some tile)

/-- `GameEngine.evaluateCallOpportunity`: call opportunities among the
current players, computed without a hand validator. -/
def evaluateCallOpportunity (e : Engine) (discardedTile : Tile) :
    List RuleEngine.CallOpportunity :=
  RuleEngine.getCallOpportunities discardedTile e.state.currentPlayer
    (e.state.players.map fun p => ⟨p.id, p.hand⟩) none

/-- `GameEngine.advanceTurn`: end the game on wall exhaustion,
otherwise pass the turn to the next seat in DRAW phase. -/
def advanceTurn (e : Engine) : Engine :=
  if e.wall.isEmpty then { e with state := endGameState e.state none }
  else
    { e with
        state :=
          { e.state with
              currentPlayer := RuleEngine.getNextPlayer e.state.currentPlayer
              turnPhase := TurnPhase.draw } }

/-- `GameEngine.discardTile`: validate seat/phase/ownership, move the
tile from the hand to the shared discard pile and the player's discard
history, then enter CALL_OPPORTUNITY if any call opportunities exist,
else advance the turn. -/
def discardTile (e : Engine) (playerId : Nat) (tile : Tile) :
    Option Engine :=
  match getPlayer e playerId with
  | none => none
  | some player =>
      if e.state.currentPlayer ≠ playerId then none
      else if e.state.turnPhase ≠ TurnPhase.discard then none
      else if ¬ RuleEngine.validateDiscard tile player.hand then none
      else
        let players := updateFirst e.state.players playerId fun p =>
          { p with
              hand := HandValidator.eraseFirstById p.hand tile.id
              discardedTiles := p.discardedTiles ++ [tile] }
        let e1 :=
          { e with
              state :=
                { e.state with
                    players := players
                    discardPile := e.state.discardPile ++ [tile] } }
        let opportunities := evaluateCallOpportunity e1 tile
        if 0 < opportunities.length then
          some
            { e1 with
                state :=
                  { e1.state with turnPhase := TurnPhase.call_opportunity } }
        else some (advanceTurn e1)

/-- `GameEngine.checkWinCondition`: pure hand-validation query. -/
def checkWinCondition (e : Engine) (playerId : Nat) : Bool :=
  match getPlayer e playerId with
  | none => false
  | some player =>
      (HandValidator.validateHand e.cardConfig player.hand
        player.exposedSets).isValid

/-- `GameEngine.processCall`: in CALL_OPPORTUNITY phase, a mahjong
call revalidates the hand with the called tile appended and, if valid,
appends the tile to the hand and ends the game with that winner (the
source does not remove the called tile from the discard pile on this
path); a pung/kong call builds the exposed set through
`RuleEngine.processCall`, removes the called tile from the discard
pile, and makes the caller the current player in DISCARD phase. -/
def processCall (e : Engine) (playerId : Nat) (callType : CallType)
    (tile : Tile) : Option Engine :=
  match getPlayer e playerId with
  | none => none
  | some player =>
      if e.state.turnPhase ≠ TurnPhase.call_opportunity then none
      else if callType = CallType.mahjong then
        if ¬ (HandValidator.validateHand e.cardConfig
            (player.hand ++ [tile]) player.exposedSets).isValid then none
        else
          let players := updateFirst e.state.players playerId fun p =>
            { p with hand := p.hand ++ [tile] }
          some
            { e with
                state := endGameState { e.state with players := players }
                  (some playerId) }
      else
        match RuleEngine.processCall player.hand tile callType e.nextId with
        | none => none
        | some (tileSet, hand', nextId') =>
            let players := updateFirst e.state.players playerId fun p =>
              { p with hand := hand', exposedSets := p.exposedSets ++ [tileSet] }
            some
              { e with
                  nextId := nextId'
                  state :=
                    { e.state with
                        players := players
                        discardPile :=
                          HandValidator.eraseFirstById e.state.discardPile
                            tile.id
                        currentPlayer := playerId
                        turnPhase := TurnPhase.discard } }

/-- `GameEngine.declineCallOpportunities`: outside CALL_OPPORTUNITY a
no-op, otherwise advance the turn. -/
def declineCallOpportunities (e : Engine) : Engine :=
  if e.state.turnPhase ≠ TurnPhase.call_opportunity then e
  else advanceTurn e

/-- `GameEngine.declareMahjong`: validate the hand (with the optional
called tile appended); on success append the tile to the hand,
remove it from the discard pile if it was called, and end the game
with this winner. -/
def declareMahjong (e : Engine) (playerId : Nat) (withTile : Option Tile) :
    Option Engine :=
  match getPlayer e playerId with
  | none => none
  | some player =>
      let handToValidate := player.hand ++ withTile.toList
      if ¬ (HandValidator.validateHand e.cardConfig handToValidate
          player.exposedSets).isValid then none
      else
        match withTile with
        | some tile =>
            let players := updateFirst e.state.players playerId fun p =>
              { p with hand := p.hand ++ [tile] }
            some
              { e with
                  state := endGameState
                    { e.state with
                        players := players
                        discardPile :=
                          HandValidator.eraseFirstById e.state.discardPile
                            tile.id }
                    (some playerId) }
        | none =>
            some { e with state := endGameState e.state (some playerId) }

/-- The conserved quantity of spec §8: tiles in the four hands, plus
tiles in all exposed sets, plus the shared discard pile, plus the
undrawn remainder of the wall. -/
def tileTotal (e : Engine) : Nat :=
  (e.state.players.map fun p => p.hand.length).sum +
  (e.state.players.map fun p =>
    (p.exposedSets.map fun s => s.tiles.length).sum).sum +
  e.state.discardPile.length +
  e.wall.getRemainingCount

end GameEngine

namespace AIPlayer

/-- `CallDecision` from Strategy.ts. -/
structure CallDecision where
  shouldCall : Bool
  reason : String
deriving DecidableEq, Repr

/-- `AIPlayer.selectDiscard` with the underlying
`Strategy.selectDiscard` computation abstracted by its outcome (a
value or a thrown exception).  The `try` block returns the strategy's
tile; the `catch` block returns `hand[0]` (`none` embeds the JS
`undefined` an empty hand would give).  The result type shows that no
exception escapes. -/
def selectDiscard (strategyResult : Except String Tile)
    (hand : List Tile) : Except String (Option Tile) :=
  match strategyResult with
  | Except.ok tile => Except.ok (some tile)
  | Except.error _ => Except.ok hand.head?

/-- `AIPlayer.evaluateCall` with `Strategy.decideCall` abstracted by
its outcome: the `catch` block substitutes the do-not-call default. -/
def evaluateCall (strategyResult : Except String CallDecision) :
    Except String CallDecision :=
  match strategyResult with
  | Except.ok decision => Except.ok decision
  | Except.error _ =>
      Except.ok ⟨false, "Error during call evaluation"⟩

end AIPlayer

/-! ## Derived definitions used by the claim statements -/

/-- Number of joker tiles in a tile list (the spec's "jokerCount ...
number of joker tiles among the hand plus exposed-set tiles"). -/
def jokerTileCount (tiles : List Tile) : Nat :=
  (tiles.filter fun t => t.type = TileType.joker).length

/-- The `totalRequired` accumulated by `evaluatePattern`: the sum of
the pattern's requirement counts. -/
def totalRequiredOf (pattern : HandPattern) : Nat :=
  pattern.tiles.foldl (fun acc r => acc + r.count) 0

/-- The `totalMatched` accumulated by `evaluatePattern` over a tile
list: the per-requirement capped match counts, summed. -/
def totalMatchedOf (tiles : List Tile) (pattern : HandPattern) : Nat :=
  pattern.tiles.foldl
    (fun acc r =>
      acc + HandEvaluator.countMatchingTiles (HandEvaluator.countTiles tiles) r)
    0

/-- The winning priority class of a set of opportunities: Mahjong if
any mahjong opportunity exists, else Kong if any, else Pung. -/
def bestCallClass (opps : List RuleEngine.CallOpportunity) : CallType :=
  if opps.any (fun o => o.callType = CallType.mahjong) then CallType.mahjong
  else if opps.any (fun o => o.callType = CallType.kong) then CallType.kong
  else CallType.pung

/-! ## Concrete instances used by counterexamples and witnesses -/

/-- A pattern asking for three bamboo-1 tiles, jokers allowed. -/
def c1pattern : HandPattern :=
  ⟨"p1", "Bamboo Triple", "Test", 25,
   [⟨ReqType.tt TileType.bamboo, 3, false, some [TValue.num 1], none, true⟩]⟩

/-- A configuration holding only `c1pattern`. -/
def c1config : CardConfig := ⟨2024, "1.0", [c1pattern]⟩

/-- A concealed hand holding a single joker tile. -/
def c1hand : List Tile := [⟨0, TileType.joker, TValue.sym "Joker", false⟩]

/-- An all-pungs style pattern: three each of bamboo 1–4 plus a pair
of bamboo 5 (requirement counts sum to 14). -/
def pungsPattern : HandPattern :=
  ⟨"all_pungs", "All Pungs", "Test", 25,
   [⟨ReqType.tt TileType.bamboo, 3, false, some [TValue.num 1], none, false⟩,
    ⟨ReqType.tt TileType.bamboo, 3, false, some [TValue.num 2], none, false⟩,
    ⟨ReqType.tt TileType.bamboo, 3, false, some [TValue.num 3], none, false⟩,
    ⟨ReqType.tt TileType.bamboo, 3, false, some [TValue.num 4], none, false⟩,
    ⟨ReqType.tt TileType.bamboo, 2, false, some [TValue.num 5], none, false⟩]⟩

/-- A configuration holding only `pungsPattern`. -/
def pungsConfig : CardConfig := ⟨2024, "1.0", [pungsPattern]⟩

/-- The bamboo-5 tile with wall id 16 (the first bamboo-5 copy of the
wall's construction order). -/
def b5tile : Tile := ⟨16, TileType.bamboo, TValue.num 5, false⟩

/-- A shuffle outcome (permutation of the 144 wall tiles) for the C2
scenario: seat 0 is dealt a bamboo-5 and twelve characters; seat 1 is
dealt three each of bamboo 1–4 and one bamboo-5. -/
def c2pickIds : List Nat :=
  [16, 36, 37, 38, 39, 40, 41, 42, 43, 44, 45, 46, 47,
   0, 1, 2, 4, 5, 6, 8, 9, 10, 12, 13, 14, 17]

/-- The C2 shuffled wall: the picked tiles first (becoming the dealt
hands of seats 0 and 1), every other tile after them in construction
order. -/
def c2wall : List Tile :=
  (c2pickIds.filterMap fun i => Wall.wall144.find? fun t => t.id = i) ++
  Wall.wall144.filter (fun t => ¬ c2pickIds.contains t.id)

/-- C2 run, first part: initialize, seat 0 draws, seat 0 discards its
bamboo-5. -/
def c2mid : Option GameEngine.Engine :=
  (GameEngine.drawTile (GameEngine.initializeGame pungsConfig c2wall) 0).bind
    fun p => GameEngine.discardTile p.1 0 b5tile

/-- C2 run, second part: seat 1 calls mahjong on the discarded
bamboo-5 (its 13 dealt tiles plus the discard match `pungsPattern`). -/
def c2fin : Option GameEngine.Engine :=
  c2mid.bind fun e => GameEngine.processCall e 1 CallType.mahjong b5tile

/-- A one-requirement pattern: a pair constrained only by
`same_suit`. -/
def c3pattern : HandPattern :=
  ⟨"ss_pair", "Same Suit Pair", "Test", 25,
   [⟨ReqType.same_suit, 2, false, none, none, false⟩]⟩

/-- Two north-wind tiles — no numbered-suit tile among them. -/
def c3windTiles : List Tile :=
  [⟨0, TileType.wind, TValue.sym "N", false⟩,
   ⟨1, TileType.wind, TValue.sym "N", false⟩]

/-- A shuffle outcome for the C4 scenario: seat 0 is dealt a bamboo-5
and twelve characters; seat 1 is dealt two bamboo-5 copies and eleven
dots. -/
def c4pickIds : List Nat :=
  [16, 36, 37, 38, 39, 40, 41, 42, 43, 44, 45, 46, 47,
   17, 18, 72, 73, 74, 75, 76, 77, 78, 79, 80, 81, 82]

/-- The C4 shuffled wall. -/
def c4wall : List Tile :=
  (c4pickIds.filterMap fun i => Wall.wall144.find? fun t => t.id = i) ++
  Wall.wall144.filter (fun t => ¬ c4pickIds.contains t.id)

/-- C4 run: initialize, seat 0 draws and discards its bamboo-5, seat 1
calls pung on it. -/
def c4run : Option GameEngine.Engine :=
  ((GameEngine.drawTile (GameEngine.initializeGame pungsConfig c4wall) 0).bind
    fun p => GameEngine.discardTile p.1 0 b5tile).bind
    fun e => GameEngine.processCall e 1 CallType.pung b5tile

/-- Hand for the C4 witness on `RuleEngine.processCall`: two matching
bamboo-5 copies, a wind, and a third bamboo-5. -/
def c4hand : List Tile :=
  [⟨1, TileType.bamboo, TValue.num 5, false⟩,
   ⟨50, TileType.wind, TValue.sym "N", false⟩,
   ⟨2, TileType.bamboo, TValue.num 5, false⟩,
   ⟨3, TileType.bamboo, TValue.num 5, false⟩]

/-- The discarded bamboo-5 for the C4 witness. -/
def c4discard : Tile := ⟨0, TileType.bamboo, TValue.num 5, false⟩

/-- An engine state whose wall is exhausted while seat 0 is in DRAW
phase with the game in progress. -/
def c5engine : GameEngine.Engine :=
  { state :=
      { selectedCardYear := 2024
        currentPlayer := 0
        players :=
          [⟨0, true, [], [], []⟩, ⟨1, false, [], [], []⟩,
           ⟨2, false, [], [], []⟩, ⟨3, false, [], [], []⟩]
        wall := []
        discardPile := []
        turnPhase := TurnPhase.draw
        gameStatus := GameStatus.in_progress
        winnerId := none }
    wall := ⟨[], 0⟩
    cardConfig := ⟨2024, "1.0", []⟩
    nextId := 144 }

/-- A 14-requirement-count pattern worth 10 points. -/
def c6low : HandPattern :=
  ⟨"low", "Low", "Test", 10,
   [⟨ReqType.tt TileType.bamboo, 14, false, some [TValue.num 1], none, false⟩]⟩

/-- The same requirement worth 100 points, listed after `c6low`. -/
def c6high : HandPattern :=
  ⟨"high", "High", "Test", 100,
   [⟨ReqType.tt TileType.bamboo, 14, false, some [TValue.num 1], none, false⟩]⟩

/-- Configuration listing the 10-point pattern before the 100-point
one. -/
def c6config : CardConfig := ⟨2024, "1.0", [c6low, c6high]⟩

/-- Fourteen bamboo-1 tiles, matching both `c6low` and `c6high`. -/
def c6hand : List Tile :=
  (List.range 14).map fun i => ⟨i, TileType.bamboo, TValue.num 1, false⟩

/-- The C7 scenario discard: a bamboo-5. -/
def c7discard : Tile := ⟨200, TileType.bamboo, TValue.num 5, false⟩

/-- The C7 scenario seats: seat 0 is the discarder, seat 1 holds
exactly two bamboo-5 tiles, seats 2 and 3 hold nothing eligible (and
no seat has a 13-tile hand, so no count-based mahjong opportunity
arises). -/
def c7players : List RuleEngine.PlayerRef :=
  [⟨0, [⟨100, TileType.wind, TValue.sym "N", false⟩]⟩,
   ⟨1, [⟨1, TileType.bamboo, TValue.num 5, false⟩,
        ⟨2, TileType.bamboo, TValue.num 5, false⟩]⟩,
   ⟨2, [⟨101, TileType.wind, TValue.sym "N", false⟩]⟩,
   ⟨3, []⟩]

/-- C8 witness opportunities: a pung, a kong and a mahjong, submitted
in that order. -/
def c8opps : List RuleEngine.CallOpportunity :=
  [⟨1, CallType.pung, c7discard⟩, ⟨2, CallType.kong, c7discard⟩,
   ⟨3, CallType.mahjong, c7discard⟩]

/-- The C10 witness discard: a bamboo-5 held by seat 0. -/
def c10tile : Tile := ⟨0, TileType.bamboo, TValue.num 5, false⟩

/-- The C10 witness engine: seat 0 in DISCARD phase holding just
`c10tile`; seat 1 holds 13 wind tiles (so it gets a count-based
mahjong opportunity on any discard); seats 2 and 3 are empty. -/
def c10engine : GameEngine.Engine :=
  { state :=
      { selectedCardYear := 2024
        currentPlayer := 0
        players :=
          [⟨0, true, [c10tile], [], []⟩,
           ⟨1, false,
            (List.range 13).map
              (fun i => ⟨i + 1, TileType.wind, TValue.sym "N", false⟩),
            [], []⟩,
           ⟨2, false, [], [], []⟩, ⟨3, false, [], [], []⟩]
        wall := []
        discardPile := []
        turnPhase := TurnPhase.discard
        gameStatus := GameStatus.in_progress
        winnerId := none }
    wall := ⟨[], 0⟩
    cardConfig := ⟨2024, "1.0", []⟩
    nextId := 144 }

/-- Seat 1 of the C10 witness engine. -/
def c10player1 : PlayerState :=
  ⟨1, false,
   (List.range 13).map (fun i => ⟨i + 1, TileType.wind, TValue.sym "N", false⟩),
   [], []⟩

/-- The engine state reached by the C10 witness discard. -/
def c10after : GameEngine.Engine :=
  (GameEngine.discardTile c10engine 0 c10tile).get (by decide)

/-! ## Claim theorems -/

/-- C1: the claim asserts every evaluation of
`HandEvaluator.evaluateHand` satisfies
`tilesNeeded = max(0, totalRequired - totalMatched - jokerCount)` with
`jokerCount` the number of joker tiles in hand plus exposed sets.  On
a hand holding one joker and the three-bamboo-1 pattern the code
yields `tilesNeeded = 3`, while the claimed formula gives
`max(0, 3 - 0 - 1) = 2`: the source looks its joker count up under the
key "joker-0" while real jokers are keyed "joker-Joker", so the
subtracted joker count is always 0. -/
theorem C1_tilesNeeded_ignores_real_jokers :
    (HandEvaluator.evaluateHand c1config c1hand []).map
        HandEvaluator.HandEvaluation.tilesNeeded = [3] ∧
    totalRequiredOf c1pattern = 3 ∧
    totalMatchedOf c1hand c1pattern = 0 ∧
    jokerTileCount c1hand = 1 ∧
    max 0 ((totalRequiredOf c1pattern : Int) - (totalMatchedOf c1hand c1pattern : Int) -
      (jokerTileCount c1hand : Int)) = 2 ∧
    (3 : Int) ≠ 2 := by
  decide

/-- C3 counterexample: a non-sequence `same_suit` requirement is
satisfied by wind tiles — `matchPattern` accepts a pair of north
winds against a pattern whose only requirement is
`{type: same_suit, count: 2}`, although the claim says only tiles of
the best-matching numbered suit may be used. -/
theorem C3_same_suit_accepts_winds :
    c3windTiles.all (fun t => t.type = TileType.wind) = true ∧
    HandValidator.matchPattern c3windTiles c3pattern = true := by
  decide

/-- C3 (amended): for non-sequence matching, `HandValidator` imposes
no type constraint at all on a `same_suit` requirement — its candidate
filter coincides with the one for `any`, so every non-joker tile
passing the value-list check (winds and dragons included) is a
candidate, and no single numbered suit is selected. -/
theorem C3_same_suit_filter_eq_any :
    ∀ (tile : Tile) (specific values : Option (List TValue)),
      HandValidator.tileMatchesRequirement tile ReqType.same_suit specific values =
        HandValidator.tileMatchesRequirement tile ReqType.any specific values := by
  intro tile specific values
  rfl

/-- C5 counterexample: with the wall empty, the current seat in DRAW
phase and the game in progress, `drawTile` returns null but leaves the
engine unchanged — the status stays IN_PROGRESS and the phase stays
DRAW, not GAME_OVER with status DRAW as claimed. -/
theorem C5_drawTile_does_not_end_game :
    GameEngine.drawTile c5engine 0 = some (c5engine, none) ∧
    c5engine.wall.isEmpty = true ∧
    c5engine.state.turnPhase = TurnPhase.draw ∧
    c5engine.state.currentPlayer = 0 ∧
    ((GameEngine.drawTile c5engine 0).map fun p => p.1.state.gameStatus) ≠
      some GameStatus.draw ∧
    ((GameEngine.drawTile c5engine 0).map fun p => p.1.state.turnPhase) ≠
      some TurnPhase.game_over := by
  decide

/-- C5 (amended): if `drawTile` is invoked for the current player in
the DRAW phase while the wall is empty, the draw fails — it returns
null — and the whole engine state is left unchanged (in particular the
status stays IN_PROGRESS and the phase stays DRAW); the status-DRAW /
GAME_OVER ending on wall exhaustion is performed by
`advanceTurn`/`processAITurn`, not by `drawTile`. -/
theorem C5_drawTile_exhausted_returns_null :
    ∀ (e : GameEngine.Engine) (playerId : Nat),
      (GameEngine.getPlayer e playerId).isSome = true →
      e.state.currentPlayer = playerId →
      e.state.turnPhase = TurnPhase.draw →
      e.wall.isEmpty = true →
      GameEngine.drawTile e playerId = some (e, none) := by
  intro e playerId hplayer hcur hphase hempty
  unfold GameEngine.drawTile
  cases hp : GameEngine.getPlayer e playerId with
  | none => rw [hp] at hplayer; simp at hplayer
  | some p =>
      simp only [hcur, hphase, Wall.draw, hempty]
      simp

/-- C5 witness: the amended theorem applied to the concrete exhausted
engine. -/
theorem C5_drawTile_exhausted_witness :
    (GameEngine.getPlayer c5engine 0).isSome = true ∧
    c5engine.wall.isEmpty = true ∧
    GameEngine.drawTile c5engine 0 = some (c5engine, none) :=
  ⟨by decide, by decide,
   C5_drawTile_exhausted_returns_null c5engine 0 (by decide) (by decide)
     (by decide) (by decide)⟩

/-- C9: `AIPlayer.selectDiscard` and `AIPlayer.evaluateCall` (the
underlying Strategy computation abstracted by its outcome) always
return a value — never an error — and on a thrown Strategy exception
fall back to the first hand tile (`hand[0]`) and to a
`shouldCall = false` decision respectively. -/
theorem C9_ai_decisions_never_throw :
    (∀ (strategyResult : Except String Tile) (hand : List Tile),
      ∃ v, AIPlayer.selectDiscard strategyResult hand = Except.ok v) ∧
    (∀ (err : String) (hand : List Tile),
      AIPlayer.selectDiscard (Except.error err) hand = Except.ok hand.head?) ∧
    (∀ (strategyResult : Except String AIPlayer.CallDecision),
      ∃ d, AIPlayer.evaluateCall strategyResult = Except.ok d) ∧
    (∀ (err : String),
      AIPlayer.evaluateCall (Except.error err) =
        Except.ok ⟨false, "Error during call evaluation"⟩) := by
  refine ⟨?_, ?_, ?_, ?_⟩
  · intro strategyResult hand
    cases strategyResult with
    | ok t => exact ⟨some t, rfl⟩
    | error e => exact ⟨hand.head?, rfl⟩
  · intro err hand
    rfl
  · intro strategyResult
    cases strategyResult with
    | ok d => exact ⟨d, rfl⟩
    | error e => exact ⟨⟨false, "Error during call evaluation"⟩, rfl⟩
  · intro err
    rfl

/-- Helper: `find?` over a split list returns the distinguished element
when everything before it fails the predicate and it passes. -/
theorem find?_append_first {α : Type} (f : α → Bool) (pre : List α)
    (x : α) (post : List α) (hpre : ∀ q ∈ pre, f q = false)
    (hx : f x = true) : (pre ++ x :: post).find? f = some x := by
  induction pre with
  | nil => simp [List.find?_cons, hx]
  | cons q rest ih =>
      have hq : f q = false := hpre q (by simp)
      simp only [List.cons_append, List.find?_cons, hq]
      exact ih fun r hr => hpre r (by simp [hr])

/-- C6: `validateHand` on a 14-tile input returns the first pattern in
configuration order that matches, scored with that pattern's points —
whatever patterns (of whatever point value) come later in the list. -/
theorem C6_validateHand_returns_first_match :
    ∀ (cardConfig : CardConfig) (hand : List Tile)
      (exposedSets : List TileSet) (pre : List HandPattern)
      (p : HandPattern) (post : List HandPattern),
      cardConfig.patterns = pre ++ p :: post →
      (∀ q ∈ pre,
        HandValidator.matchPattern
          (hand ++ exposedSets.flatMap TileSet.tiles) q = false) →
      HandValidator.matchPattern
        (hand ++ exposedSets.flatMap TileSet.tiles) p = true →
      (hand ++ exposedSets.flatMap TileSet.tiles).length = 14 →
      HandValidator.validateHand cardConfig hand exposedSets =
        ⟨true, some p, some p.points, none⟩ := by
  intro cardConfig hand exposedSets pre p post hsplit hpre hp hlen
  unfold HandValidator.validateHand
  rw [hsplit]
  simp only [hlen, ne_eq, not_true_eq_false, if_false,
    find?_append_first _ pre p post hpre hp]
  rfl

/-- C6 witness: with a configuration listing a 10-point pattern before
a 100-point pattern and fourteen bamboo-1 tiles matching both,
`validateHand` returns the earlier, lower-scoring pattern. -/
theorem C6_first_match_witness :
    HandValidator.matchPattern
      (c6hand ++ ([] : List TileSet).flatMap TileSet.tiles) c6high = true ∧
    c6low.points = 10 ∧ c6high.points = 100 ∧
    HandValidator.validateHand c6config c6hand [] =
      ⟨true, some c6low, some c6low.points, none⟩ :=
  ⟨by decide, by decide, by decide,
   C6_validateHand_returns_first_match c6config c6hand [] [] c6low [c6high]
     (by decide) (by intro q hq; simp at hq) (by decide) (by decide)⟩

/-- Helper: every opportunity a player contributes carries that
player's id. -/
theorem playerId_of_mem_playerOpportunities
    (d : Tile) (v : Option CardConfig) (pl : RuleEngine.PlayerRef)
    (opp : RuleEngine.CallOpportunity)
    (h : opp ∈ RuleEngine.playerOpportunities d v pl) :
    opp.playerId = pl.id := by
  unfold RuleEngine.playerOpportunities at h
  rcases List.mem_append.1 h with h1 | hc
  · rcases List.mem_append.1 h1 with ha | hb
    · cases v with
      | none =>
          rw [List.mem_ite_nil_right, List.mem_singleton] at ha
          rw [ha.2]
      | some config =>
          rw [List.mem_ite_nil_right] at ha
          have h2 := ha.2
          rw [List.mem_ite_nil_right, List.mem_singleton] at h2
          rw [h2.2]
    · rw [List.mem_ite_nil_right, List.mem_singleton] at hb
      rw [hb.2]
  · rw [List.mem_ite_nil_right, List.mem_singleton] at hc
    rw [hc.2]

/-- Helper: pung eligibility unfolded — non-joker discard and at least
two exactly matching non-joker hand tiles. -/
theorem validatePungCall_isValid_iff (hand : List Tile) (d : Tile) :
    (RuleEngine.validatePungCall hand d).isValid = true ↔
      d.type ≠ TileType.joker ∧
        2 ≤ (RuleEngine.matchingTiles hand d).length := by
  unfold RuleEngine.validatePungCall
  split
  next h => simp [h]
  next h =>
    split
    next h2 => simp [h]; omega
    next h2 => simp [h]; omega

/-- Helper: a player's contribution contains the pung opportunity
exactly when the player is pung-eligible. -/
theorem pungOpp_mem_playerOpportunities
    (d : Tile) (v : Option CardConfig) (pl : RuleEngine.PlayerRef)
    (pid : Nat) :
    ((⟨pid, CallType.pung, d⟩ : RuleEngine.CallOpportunity) ∈
      RuleEngine.playerOpportunities d v pl) ↔
    (pid = pl.id ∧ d.type ≠ TileType.joker ∧
      2 ≤ (RuleEngine.matchingTiles pl.hand d).length) := by
  rw [← validatePungCall_isValid_iff]
  unfold RuleEngine.playerOpportunities
  cases v with
  | none =>
      simp only [List.mem_append, List.mem_ite_nil_right, List.mem_singleton,
        RuleEngine.CallOpportunity.mk.injEq]
      constructor
      · rintro ((⟨-, -, hne, -⟩ | ⟨-, -, hne, -⟩) | ⟨hval, hid, -, -⟩)
        · cases hne
        · cases hne
        · exact ⟨hid, hval⟩
      · rintro ⟨hid, hval⟩
        exact Or.inr ⟨hval, hid, trivial, trivial⟩
  | some config =>
      simp only [List.mem_append, List.mem_ite_nil_right, List.mem_singleton,
        RuleEngine.CallOpportunity.mk.injEq]
      constructor
      · rintro ((⟨-, -, -, hne, -⟩ | ⟨-, -, hne, -⟩) | ⟨hval, hid, -, -⟩)
        · cases hne
        · cases hne
        · exact ⟨hid, hval⟩
      · rintro ⟨hid, hval⟩
        exact Or.inr ⟨hval, hid, trivial, trivial⟩

/-- C7: `getCallOpportunities` never yields an opportunity for the
discarder; a pung opportunity for a seat is present exactly when some
listed player with that id is not the discarder, the discard is not a
joker, and the player holds at least two exactly matching non-joker
tiles; and in the concrete bamboo-5 scenario (seat 1 holding exactly
two bamboo-5 tiles, no other seat eligible) the returned opportunities
are exactly one PUNG for seat 1. -/
theorem C7_pung_call_opportunities :
    (∀ (d : Tile) (cur : Nat) (players : List RuleEngine.PlayerRef)
       (v : Option CardConfig) (opp : RuleEngine.CallOpportunity),
       opp ∈ RuleEngine.getCallOpportunities d cur players v →
         opp.playerId ≠ cur) ∧
    (∀ (d : Tile) (cur : Nat) (players : List RuleEngine.PlayerRef)
       (v : Option CardConfig) (pid : Nat),
       ((⟨pid, CallType.pung, d⟩ : RuleEngine.CallOpportunity) ∈
           RuleEngine.getCallOpportunities d cur players v) ↔
         ∃ pl ∈ players, pl.id = pid ∧ pid ≠ cur ∧
           d.type ≠ TileType.joker ∧
           2 ≤ (RuleEngine.matchingTiles pl.hand d).length) ∧
    RuleEngine.getCallOpportunities c7discard 0 c7players none =
      [⟨1, CallType.pung, c7discard⟩] := by
  refine ⟨?_, ?_, by decide⟩
  · intro d cur players v opp hmem
    rw [RuleEngine.getCallOpportunities, List.mem_flatMap] at hmem
    obtain ⟨pl, hpl, hin⟩ := hmem
    rw [List.mem_ite_nil_left] at hin
    rw [playerId_of_mem_playerOpportunities d v pl opp hin.2]
    exact hin.1
  · intro d cur players v pid
    rw [RuleEngine.getCallOpportunities, List.mem_flatMap]
    constructor
    · rintro ⟨pl, hpl, hin⟩
      rw [List.mem_ite_nil_left] at hin
      obtain ⟨hne, hin⟩ := hin
      obtain ⟨hid, hjok, hcnt⟩ :=
        (pungOpp_mem_playerOpportunities d v pl pid).1 hin
      exact ⟨pl, hpl, hid.symm, by rw [hid]; exact hne, hjok, hcnt⟩
    · rintro ⟨pl, hpl, hid, hne, hjok, hcnt⟩
      refine ⟨pl, hpl, ?_⟩
      rw [List.mem_ite_nil_left]
      refine ⟨by rw [hid]; exact hne, ?_⟩
      exact (pungOpp_mem_playerOpportunities d v pl pid).2 ⟨hid.symm, hjok, hcnt⟩

/-- C7 witness: the pung-membership characterization and the
no-discarder property applied at the concrete bamboo-5 scenario. -/
theorem C7_pung_call_opportunities_witness :
    ((⟨1, CallType.pung, c7discard⟩ : RuleEngine.CallOpportunity) ∈
      RuleEngine.getCallOpportunities c7discard 0 c7players none) ∧
    (⟨1, CallType.pung, c7discard⟩ :
      RuleEngine.CallOpportunity).playerId ≠ 0 :=
  ⟨(C7_pung_call_opportunities.2.1 c7discard 0 c7players none 1).2
    ⟨⟨1, [⟨1, TileType.bamboo, TValue.num 5, false⟩,
          ⟨2, TileType.bamboo, TValue.num 5, false⟩]⟩,
      by decide, rfl, by decide, by decide, by decide⟩,
   C7_pung_call_opportunities.1 c7discard 0 c7players none
     ⟨1, CallType.pung, c7discard⟩ (by decide)⟩


/-- Helper: the tie-break scan returns an element of its candidate
pool that minimizes the clockwise distance. -/
theorem pickClosest_spec (cur : Nat) (rest : List RuleEngine.CallOpportunity) :
    ∀ best : RuleEngine.CallOpportunity,
      RuleEngine.pickClosest cur best rest ∈ best :: rest ∧
      RuleEngine.getPlayerDistance cur
          (RuleEngine.pickClosest cur best rest).playerId ≤
        RuleEngine.getPlayerDistance cur best.playerId ∧
      ∀ o ∈ rest,
        RuleEngine.getPlayerDistance cur
            (RuleEngine.pickClosest cur best rest).playerId ≤
          RuleEngine.getPlayerDistance cur o.playerId := by
  induction rest with
  | nil => intro best; simp [RuleEngine.pickClosest]
  | cons o rest ih =>
      intro best
      have hstep : RuleEngine.pickClosest cur best (o :: rest) =
          RuleEngine.pickClosest cur
            (if RuleEngine.getPlayerDistance cur o.playerId <
                RuleEngine.getPlayerDistance cur best.playerId then o else best)
            rest := by
        simp [RuleEngine.pickClosest]
      obtain ⟨hmem, hbest, hrest⟩ := ih
        (if RuleEngine.getPlayerDistance cur o.playerId <
            RuleEngine.getPlayerDistance cur best.playerId then o else best)
      rw [hstep]
      refine ⟨?_, ?_, ?_⟩
      · rcases List.mem_cons.1 hmem with h | h
        · rw [h]
          split
          · exact List.mem_cons_of_mem _ (List.mem_cons_self _ _)
          · exact List.mem_cons_self _ _
        · exact List.mem_cons_of_mem _ (List.mem_cons_of_mem _ h)
      · refine le_trans hbest ?_
        split
        next hlt => exact le_of_lt hlt
        next => exact le_refl _
      · intro x hx
        rcases List.mem_cons.1 hx with h | h
        · rw [h]
          refine le_trans hbest ?_
          split
          next => exact le_refl _
          next hlt => exact le_of_not_lt hlt
        · exact hrest x h

/-- Helper: a priority class with a non-empty filter resolves to the
closest-seat scan over that filter. -/
theorem resolveLoop_cons_of_filter (opps : List RuleEngine.CallOpportunity)
    (cur : Nat) (ct : CallType) (rest : List CallType)
    (first : RuleEngine.CallOpportunity)
    (more : List RuleEngine.CallOpportunity)
    (h : opps.filter (fun o => o.callType = ct) = first :: more) :
    RuleEngine.resolveLoop opps cur (ct :: rest) =
      some (RuleEngine.pickClosest cur first more) := by
  rw [RuleEngine.resolveLoop, h]
  cases more with
  | nil => simp [RuleEngine.pickClosest]
  | cons a l => rfl

/-- Helper: an empty priority class is skipped. -/
theorem resolveLoop_cons_of_empty (opps : List RuleEngine.CallOpportunity)
    (cur : Nat) (ct : CallType) (rest : List CallType)
    (h : opps.filter (fun o => o.callType = ct) = []) :
    RuleEngine.resolveLoop opps cur (ct :: rest) =
      RuleEngine.resolveLoop opps cur rest := by
  rw [RuleEngine.resolveLoop, h]

/-- Helper: the element picked from a priority class belongs to the
opportunity list, carries the class's call type, and minimizes the
clockwise distance within the class. -/
theorem classPick_spec (opps : List RuleEngine.CallOpportunity) (cur : Nat)
    (ct : CallType) (first : RuleEngine.CallOpportunity)
    (more : List RuleEngine.CallOpportunity)
    (h : opps.filter (fun o => o.callType = ct) = first :: more) :
    RuleEngine.pickClosest cur first more ∈ opps ∧
    (RuleEngine.pickClosest cur first more).callType = ct ∧
    ∀ o ∈ opps, o.callType = ct →
      RuleEngine.getPlayerDistance cur
          (RuleEngine.pickClosest cur first more).playerId ≤
        RuleEngine.getPlayerDistance cur o.playerId := by
  obtain ⟨hmem, -, hrest⟩ := pickClosest_spec cur more first
  rw [← h] at hmem
  have hmem' := List.mem_filter.1 hmem
  refine ⟨hmem'.1, by simpa using hmem'.2, ?_⟩
  intro o ho hot
  have : o ∈ first :: more := by
    rw [← h]
    exact List.mem_filter.2 ⟨ho, by simp [hot]⟩
  rcases List.mem_cons.1 this with h1 | h1
  · rw [h1]
    exact (pickClosest_spec cur more first).2.1
  · exact hrest o h1

/-- C8: on any non-empty opportunity list, `resolveCallPriority`
returns an element of the list whose call type is the winning priority
class (Mahjong if any mahjong opportunity exists, else Kong if any,
else Pung — an order-independent characterization), and whose caller
has the minimal clockwise distance `(seat - discarder + 4) % 4` among
the opportunities of that class. -/
theorem C8_resolveCallPriority_spec :
    ∀ (opps : List RuleEngine.CallOpportunity) (cur : Nat),
      opps ≠ [] →
      ∃ r, RuleEngine.resolveCallPriority opps cur = some r ∧
        r ∈ opps ∧ r.callType = bestCallClass opps ∧
        ∀ o ∈ opps, o.callType = r.callType →
          RuleEngine.getPlayerDistance cur r.playerId ≤
            RuleEngine.getPlayerDistance cur o.playerId := by
  intro opps cur hne
  have hlen : ¬ opps.length = 0 := by
    intro h; exact hne (List.length_eq_zero.1 h)
  rw [RuleEngine.resolveCallPriority, if_neg hlen]
  cases hM : opps.filter (fun o => o.callType = CallType.mahjong) with
  | cons first more =>
      refine ⟨RuleEngine.pickClosest cur first more,
        resolveLoop_cons_of_filter opps cur _ _ first more hM, ?_⟩
      obtain ⟨h1, h2, h3⟩ := classPick_spec opps cur _ first more hM
      have hbest : bestCallClass opps = CallType.mahjong := by
        have : opps.any (fun o => o.callType = CallType.mahjong) = true := by
          obtain ⟨x, hx⟩ := List.exists_mem_of_ne_nil _ (by rw [hM]; simp :
            opps.filter (fun o => o.callType = CallType.mahjong) ≠ [])
          have := List.mem_filter.1 hx
          exact List.any_eq_true.2 ⟨x, this.1, this.2⟩
        simp [bestCallClass, this]
      exact ⟨h1, by rw [h2, hbest], by rw [h2]; exact h3⟩
  | nil =>
      rw [resolveLoop_cons_of_empty opps cur _ _ hM]
      have hnoM : opps.any (fun o => o.callType = CallType.mahjong) = false := by
        rw [← Bool.not_eq_true, List.any_eq_true]
        rintro ⟨x, hx, hxt⟩
        have : x ∈ opps.filter (fun o => o.callType = CallType.mahjong) :=
          List.mem_filter.2 ⟨hx, hxt⟩
        rw [hM] at this; cases this
      cases hK : opps.filter (fun o => o.callType = CallType.kong) with
      | cons first more =>
          refine ⟨RuleEngine.pickClosest cur first more,
            resolveLoop_cons_of_filter opps cur _ _ first more hK, ?_⟩
          obtain ⟨h1, h2, h3⟩ := classPick_spec opps cur _ first more hK
          have hbest : bestCallClass opps = CallType.kong := by
            have hK' : opps.any (fun o => o.callType = CallType.kong) = true := by
              obtain ⟨x, hx⟩ := List.exists_mem_of_ne_nil _ (by rw [hK]; simp :
                opps.filter (fun o => o.callType = CallType.kong) ≠ [])
              have := List.mem_filter.1 hx
              exact List.any_eq_true.2 ⟨x, this.1, this.2⟩
            simp [bestCallClass, hnoM, hK']
          exact ⟨h1, by rw [h2, hbest], by rw [h2]; exact h3⟩
      | nil =>
          rw [resolveLoop_cons_of_empty opps cur _ _ hK]
          have hnoK : opps.any (fun o => o.callType = CallType.kong) = false := by
            rw [← Bool.not_eq_true, List.any_eq_true]
            rintro ⟨x, hx, hxt⟩
            have : x ∈ opps.filter (fun o => o.callType = CallType.kong) :=
              List.mem_filter.2 ⟨hx, hxt⟩
            rw [hK] at this; cases this
          cases hP : opps.filter (fun o => o.callType = CallType.pung) with
          | nil =>
              exfalso
              obtain ⟨x, hx⟩ := List.exists_mem_of_ne_nil _ hne
              have hfil : ∀ ct, opps.filter (fun o => o.callType = ct) = [] →
                  x.callType ≠ ct := by
                intro ct hc hceq
                have : x ∈ opps.filter (fun o => o.callType = ct) :=
                  List.mem_filter.2 ⟨hx, by simp [hceq]⟩
                rw [hc] at this; cases this
              cases hxt : x.callType with
              | mahjong => exact hfil _ hM hxt
              | kong => exact hfil _ hK hxt
              | pung => exact hfil _ hP hxt
          | cons first more =>
              refine ⟨RuleEngine.pickClosest cur first more,
                resolveLoop_cons_of_filter opps cur _ _ first more hP, ?_⟩
              obtain ⟨h1, h2, h3⟩ := classPick_spec opps cur _ first more hP
              have hbest : bestCallClass opps = CallType.pung := by
                simp [bestCallClass, hnoM, hnoK]
              exact ⟨h1, by rw [h2, hbest], by rw [h2]; exact h3⟩


/-- C8 witness: the resolution theorem applied to a concrete list
holding a pung, a kong and a mahjong opportunity (in that submission
order). -/
theorem C8_resolveCallPriority_witness :
    c8opps ≠ [] ∧
    ∃ r, RuleEngine.resolveCallPriority c8opps 0 = some r ∧
      r ∈ c8opps ∧ r.callType = bestCallClass c8opps ∧
      ∀ o ∈ c8opps, o.callType = r.callType →
        RuleEngine.getPlayerDistance 0 r.playerId ≤
          RuleEngine.getPlayerDistance 0 o.playerId :=
  ⟨by decide, C8_resolveCallPriority_spec c8opps 0 (by decide)⟩

/-- Helper: replacing the first player with a given id leaves every
player with a different id in the list. -/
theorem mem_updateFirst_of_ne (players : List PlayerState) (pid : Nat)
    (f : PlayerState → PlayerState) (p : PlayerState)
    (hp : p ∈ players) (hne : p.id ≠ pid) :
    p ∈ GameEngine.updateFirst players pid f := by
  induction players with
  | nil => cases hp
  | cons q rest ih =>
      rw [GameEngine.updateFirst]
      rcases List.mem_cons.1 hp with h | h
      · subst h
        rw [if_neg hne]
        exact List.mem_cons_self _ _
      · split
        · exact List.mem_cons_of_mem _ h
        · exact List.mem_cons_of_mem _ (ih h)

/-- Helper: a non-discarding player with a 13-tile hand always
receives a count-based MAHJONG opportunity when no hand validator is
supplied. -/
theorem mahjongOpp_mem_getCallOpportunities
    (d : Tile) (cur : Nat) (players : List RuleEngine.PlayerRef)
    (pl : RuleEngine.PlayerRef) (hmem : pl ∈ players) (hne : pl.id ≠ cur)
    (hlen : pl.hand.length = 13) :
    (⟨pl.id, CallType.mahjong, d⟩ : RuleEngine.CallOpportunity) ∈
      RuleEngine.getCallOpportunities d cur players none := by
  rw [RuleEngine.getCallOpportunities, List.mem_flatMap]
  refine ⟨pl, hmem, ?_⟩
  rw [List.mem_ite_nil_left]
  refine ⟨hne, ?_⟩
  unfold RuleEngine.playerOpportunities
  apply List.mem_append.2
  left
  apply List.mem_append.2
  left
  have hval : (RuleEngine.validateMahjongCall pl.hand (some d)).isValid = true := by
    unfold RuleEngine.validateMahjongCall
    simp [hlen]
  rw [List.mem_ite_nil_right]
  exact ⟨hval, List.mem_singleton.2 rfl⟩

/-- C10: without a hand validator, `getCallOpportunities` grants a
MAHJONG opportunity to every non-discarding 13-tile seat on tile count
alone (no winning-pattern check); consequently whenever
`GameEngine.discardTile` succeeds while some other seat holds exactly
13 tiles, the computed opportunities are non-empty and the engine
enters CALL_OPPORTUNITY with the current seat unchanged, rather than
advancing the turn. -/
theorem C10_thirteen_tile_mahjong_opportunity :
    (∀ (d : Tile) (cur : Nat) (players : List RuleEngine.PlayerRef)
       (pl : RuleEngine.PlayerRef), pl ∈ players → pl.id ≠ cur →
       pl.hand.length = 13 →
       (⟨pl.id, CallType.mahjong, d⟩ : RuleEngine.CallOpportunity) ∈
         RuleEngine.getCallOpportunities d cur players none) ∧
    (∀ (e : GameEngine.Engine) (playerId : Nat) (tile : Tile)
       (e' : GameEngine.Engine) (p : PlayerState),
       GameEngine.discardTile e playerId tile = some e' →
       p ∈ e.state.players → p.id ≠ playerId → p.hand.length = 13 →
       e'.state.turnPhase = TurnPhase.call_opportunity ∧
       e'.state.currentPlayer = e.state.currentPlayer) := by
  refine ⟨fun d cur players pl hmem hne hlen =>
    mahjongOpp_mem_getCallOpportunities d cur players pl hmem hne hlen, ?_⟩
  intro e playerId tile e' p h hp hne hlen
  unfold GameEngine.discardTile at h
  cases hgp : GameEngine.getPlayer e playerId with
  | none => rw [hgp] at h; cases h
  | some player =>
      rw [hgp] at h
      simp only at h
      split at h
      · cases h
      · split at h
        · cases h
        · split at h
          · cases h
          · next hcur hphase hdisc =>
              have hcur' : e.state.currentPlayer = playerId := by
                by_contra hc
                exact hcur hc
              split at h
              · next hopp =>
                  rw [← Option.some_inj.1 h]
                  exact ⟨rfl, rfl⟩
              · next hopp =>
                  exfalso
                  apply hopp
                  have hpmem : p ∈ GameEngine.updateFirst e.state.players playerId
                      (fun q => { q with
                        hand := HandValidator.eraseFirstById q.hand tile.id
                        discardedTiles := q.discardedTiles ++ [tile] }) :=
                    mem_updateFirst_of_ne _ _ _ _ hp hne
                  have href : (⟨p.id, p.hand⟩ : RuleEngine.PlayerRef) ∈
                      (GameEngine.updateFirst e.state.players playerId
                        (fun q => { q with
                          hand := HandValidator.eraseFirstById q.hand tile.id
                          discardedTiles := q.discardedTiles ++ [tile] })).map
                        (fun q => (⟨q.id, q.hand⟩ : RuleEngine.PlayerRef)) :=
                    List.mem_map.2 ⟨p, hpmem, rfl⟩
                  have hopp2 := mahjongOpp_mem_getCallOpportunities tile
                    e.state.currentPlayer _ ⟨p.id, p.hand⟩ href
                    (by rw [hcur']; exact hne) hlen
                  exact List.length_pos.2 (List.ne_nil_of_mem hopp2)

/-- C10 witness: in the concrete engine where seat 1 holds 13 winds
and seat 0 discards a bamboo-5, the theorem yields the
CALL_OPPORTUNITY transition. -/
theorem C10_thirteen_tile_witness :
    c10player1 ∈ c10engine.state.players ∧
    c10player1.hand.length = 13 ∧
    GameEngine.discardTile c10engine 0 c10tile = some c10after ∧
    c10after.state.turnPhase = TurnPhase.call_opportunity ∧
    c10after.state.currentPlayer = c10engine.state.currentPlayer :=
  have hsome : GameEngine.discardTile c10engine 0 c10tile = some c10after := by
    decide
  ⟨by decide, by decide, hsome,
   (C10_thirteen_tile_mahjong_opportunity.2 c10engine 0 c10tile c10after
     c10player1 hsome (by decide) (by decide) (by decide)).1,
   (C10_thirteen_tile_mahjong_opportunity.2 c10engine 0 c10tile c10after
     c10player1 hsome (by decide) (by decide) (by decide)).2⟩


/-- Helper: removing a tile by id yields a sublist. -/
theorem eraseFirstById_sublist (l : List Tile) (id : Nat) :
    (HandValidator.eraseFirstById l id).Sublist l := by
  induction l with
  | nil => simp [HandValidator.eraseFirstById]
  | cons t rest ih =>
      rw [HandValidator.eraseFirstById]
      split
      · exact List.sublist_cons_self t rest
      · exact List.Sublist.cons₂ t ih

/-- Helper: the removal/copy loop of `RuleEngine.processCall` shrinks
the hand to a sublist of itself and only ever creates exposed copies
with ids at or above the allocator base, reproducing the matched
tiles' type and value. -/
theorem removeAndCopy_spec (dType : TileType) (dValue : TValue) :
    ∀ (matched : List Tile) (hand : List Tile) (nid : Nat),
      (∀ m ∈ matched, m.type = dType ∧ m.value = dValue) →
      (RuleEngine.removeAndCopy hand matched nid).1.Sublist hand ∧
      ∀ c ∈ (RuleEngine.removeAndCopy hand matched nid).2.1,
        c.exposed = true ∧ nid ≤ c.id ∧ c.type = dType ∧ c.value = dValue := by
  intro matched
  induction matched with
  | nil =>
      intro hand nid hP
      rw [RuleEngine.removeAndCopy]
      exact ⟨List.Sublist.refl hand, by intro c hc; cases hc⟩
  | cons m rest ih =>
      intro hand nid hP
      rw [RuleEngine.removeAndCopy]
      split
      · next hfound =>
          obtain ⟨hsub, hcop⟩ := ih (HandValidator.eraseFirstById hand m.id)
            (nid + 1) (fun x hx => hP x (List.mem_cons_of_mem _ hx))
          constructor
          · exact hsub.trans (eraseFirstById_sublist hand m.id)
          · intro c hc
            rcases List.mem_cons.1 hc with h | h
            · subst h
              exact ⟨rfl, le_refl _, (hP m (List.mem_cons_self _ _)).1,
                (hP m (List.mem_cons_self _ _)).2⟩
            · obtain ⟨he, hid, ht, hv⟩ := hcop c h
              exact ⟨he, le_trans (Nat.le_succ nid) hid, ht, hv⟩
      · next hfound =>
          exact ih hand nid (fun x hx => hP x (List.mem_cons_of_mem _ hx))

/-- Helper: members of the matching-tile filter agree with the
discard's type and value. -/
theorem mem_matchingTiles (hand : List Tile) (d : Tile) (m : Tile)
    (h : m ∈ RuleEngine.matchingTiles hand d) :
    m.type = d.type ∧ m.value = d.value := by
  have := List.mem_filter.1 h
  have h2 := this.2
  simp only [Bool.decide_and, Bool.and_eq_true, decide_eq_true_eq] at h2
  exact ⟨h2.1, h2.2.1⟩

/-- Helper: a successfully constructed tile set is exactly the record
of its arguments. -/
theorem TileSet_mk?_eq_some (st : SetType) (tiles : List Tile)
    (s : TileSet) (h : TileSet.mk? st tiles = some s) :
    s = ⟨st, tiles⟩ := by
  by_cases hv : TileSet.validate ⟨st, tiles⟩ = true
  · have he : TileSet.mk? st tiles = some ⟨st, tiles⟩ := by
      simp [TileSet.mk?, hv]
    rw [he] at h
    exact (Option.some_inj.1 h).symm
  · have he : TileSet.mk? st tiles = none := by
      simp [TileSet.mk?, hv]
    rw [he] at h
    cases h

/-- C4 (amended): a successful pung/kong `RuleEngine.processCall`
does create new tile objects — every tile of the returned exposed set
is freshly constructed (exposed flag set, id at or above the allocator
counter, hence outside the wall's 0..143 ids after initialization)
with the called tile's type and value, and the resulting hand is a
sublist of the input hand (the matched originals removed, nothing
added). -/
theorem C4_processCall_fresh_copies :
    ∀ (hand : List Tile) (d : Tile) (callType : CallType) (nextId : Nat)
      (tileSet : TileSet) (hand' : List Tile) (nid : Nat),
      RuleEngine.processCall hand d callType nextId =
        some (tileSet, hand', nid) →
      hand'.Sublist hand ∧
      ∀ t ∈ tileSet.tiles, t.exposed = true ∧ nextId ≤ t.id ∧
        t.type = d.type ∧ t.value = d.value := by
  intro hand d callType nextId tileSet hand' nid h
  unfold RuleEngine.processCall at h
  have main : ∀ (n : Nat) (st : SetType),
      (if (RuleEngine.matchingTiles hand d).length < n then none
       else
         match RuleEngine.removeAndCopy hand
             ((RuleEngine.matchingTiles hand d).take n) (nextId + 1) with
         | (hand2, copies, nid2) =>
             Option.map (fun s => (s, hand2, nid2))
               (TileSet.mk? st
                 (⟨nextId, d.type, d.value, true⟩ :: copies))) =
        some (tileSet, hand', nid) →
      hand'.Sublist hand ∧
      ∀ t ∈ tileSet.tiles, t.exposed = true ∧ nextId ≤ t.id ∧
        t.type = d.type ∧ t.value = d.value := by
    intro n st hh
    split at hh
    · cases hh
    · next hlen =>
        obtain ⟨hsub, hcop⟩ := removeAndCopy_spec d.type d.value
          ((RuleEngine.matchingTiles hand d).take n) hand (nextId + 1)
          (fun m hm => mem_matchingTiles hand d m (List.mem_of_mem_take hm))
        rcases hrc : RuleEngine.removeAndCopy hand
            ((RuleEngine.matchingTiles hand d).take n) (nextId + 1) with
          ⟨handAfter, copies, nidAfter⟩
        rw [hrc] at hsub hcop
        have hh2 : Option.map (fun s => (s, handAfter, nidAfter))
            (TileSet.mk? st (⟨nextId, d.type, d.value, true⟩ :: copies)) =
            some (tileSet, hand', nid) := by
          rw [hrc] at hh
          exact hh
        cases hmk : TileSet.mk? st (⟨nextId, d.type, d.value, true⟩ :: copies) with
        | none => rw [hmk] at hh2; cases hh2
        | some s =>
            rw [hmk, Option.map_some'] at hh2
            have h1 := Option.some_inj.1 hh2
            have hset : tileSet = s := (congrArg Prod.fst h1).symm
            have hrest := congrArg Prod.snd h1
            have hhand : hand' = handAfter := (congrArg Prod.fst hrest).symm
            have hstiles : s = ⟨st, ⟨nextId, d.type, d.value, true⟩ :: copies⟩ :=
              TileSet_mk?_eq_some st _ s hmk
            constructor
            · rw [hhand]; exact hsub
            · intro t ht
              rw [hset, hstiles] at ht
              rcases List.mem_cons.1 ht with h2 | h2
              · rw [h2]
                exact ⟨rfl, le_refl _, rfl, rfl⟩
              · obtain ⟨he, hid, hty, hv⟩ := hcop t h2
                exact ⟨he, le_trans (Nat.le_succ nextId) hid, hty, hv⟩
  cases callType with
  | mahjong => cases h
  | pung => exact main 2 SetType.pung h
  | kong => exact main 3 SetType.kong h

set_option maxRecDepth 100000 in
/-- C4 counterexample: in a reachable game (initialize with a concrete
shuffle, seat 0 draws and discards a bamboo-5, seat 1 calls pung),
seat 1's exposed set holds tiles with ids 144, 145 and 146 — none of
which is among the 144 tile objects (ids 0..143) the Wall created at
initialization, refuting "no operation creates new tile objects". -/
theorem C4_exposed_set_has_nonwall_tiles :
    c4wall.Perm Wall.wall144 ∧
    (c4run.map fun e =>
        e.state.players.map fun p =>
          (p.exposedSets.flatMap TileSet.tiles).map Tile.id) =
      some [[], [144, 145, 146], [], []] ∧
    (Wall.wall144.map Tile.id).all (fun i => i < 144) = true ∧
    ¬ (144 ∈ Wall.wall144.map Tile.id) := by
  decide

/-- C4 witness: the amended theorem applied to a concrete pung call
(two bamboo-5 copies and a wind in hand, a bamboo-5 discard). -/
theorem C4_processCall_fresh_copies_witness :
    RuleEngine.processCall c4hand c4discard CallType.pung 144 =
      some (⟨SetType.pung,
              [⟨144, TileType.bamboo, TValue.num 5, true⟩,
               ⟨145, TileType.bamboo, TValue.num 5, true⟩,
               ⟨146, TileType.bamboo, TValue.num 5, true⟩]⟩,
            [⟨50, TileType.wind, TValue.sym "N", false⟩,
             ⟨3, TileType.bamboo, TValue.num 5, false⟩], 147) ∧
    ([⟨50, TileType.wind, TValue.sym "N", false⟩,
      ⟨3, TileType.bamboo, TValue.num 5, false⟩] : List Tile).Sublist c4hand ∧
    ∀ t ∈ [⟨144, TileType.bamboo, TValue.num 5, true⟩,
           ⟨145, TileType.bamboo, TValue.num 5, true⟩,
           ⟨146, TileType.bamboo, TValue.num 5, true⟩],
      Tile.exposed t = true ∧ 144 ≤ Tile.id t ∧
        Tile.type t = c4discard.type ∧ Tile.value t = c4discard.value :=
  ⟨by decide,
   (C4_processCall_fresh_copies c4hand c4discard CallType.pung 144
     ⟨SetType.pung,
      [⟨144, TileType.bamboo, TValue.num 5, true⟩,
       ⟨145, TileType.bamboo, TValue.num 5, true⟩,
       ⟨146, TileType.bamboo, TValue.num 5, true⟩]⟩
     [⟨50, TileType.wind, TValue.sym "N", false⟩,
      ⟨3, TileType.bamboo, TValue.num 5, false⟩] 147 (by decide)).1,
   (C4_processCall_fresh_copies c4hand c4discard CallType.pung 144
     ⟨SetType.pung,
      [⟨144, TileType.bamboo, TValue.num 5, true⟩,
       ⟨145, TileType.bamboo, TValue.num 5, true⟩,
       ⟨146, TileType.bamboo, TValue.num 5, true⟩]⟩
     [⟨50, TileType.wind, TValue.sym "N", false⟩,
      ⟨3, TileType.bamboo, TValue.num 5, false⟩] 147 (by decide)).2⟩

set_option maxRecDepth 100000 in
/-- C2: a conservation break the claim's invariant rules out, reached
through the claimed operations alone.  With a legitimate shuffle
(`c2wall` is a permutation of the 144 wall tiles), the sum of hand,
exposed-set, discard-pile and remaining-wall tiles is 144 after
initialization, the draw and the discard — but rises to 145 when seat
1's mahjong call is processed, because `GameEngine.processCall`
appends the called tile to the winner's hand without removing it from
the discard pile (its sibling path `declareMahjong` does remove it). -/
theorem C2_mahjong_call_breaks_conservation :
    c2wall.Perm Wall.wall144 ∧
    GameEngine.tileTotal (GameEngine.initializeGame pungsConfig c2wall) = 144 ∧
    c2mid.map GameEngine.tileTotal = some 144 ∧
    (c2mid.map fun e => e.state.turnPhase) = some TurnPhase.call_opportunity ∧
    c2fin.map GameEngine.tileTotal = some 145 ∧
    (c2fin.map fun e => e.state.gameStatus) = some GameStatus.won := by
  decide
